import Mathlib

/-!
Verification of the NaizoLauncher file synchronization engine.

This development gives a shallow embedding of the launcher's
download / verify / retry / modpack-sync pipeline:

* `downloadFile`, `downloadAndVerify`, `downloadWithRetry`
  (src/file-manager/downloader.js),
* `validateFile`, `validateLibraries`, `getMissingFiles`
  (the installation validator),
* `ModpackManager.validateLocalFiles`, `downloadUpdates`,
  `cleanupExtraFiles` / `scanAndDelete`, `sync` (the modpack manager),
* the modpack stage of `launchMinecraft` (src/launch/game-launcher.js).

Modelling conventions:

* File contents are byte lists (`Content`).  The SHA1 function is an
  abstract parameter `hash : Content → String`; the code only ever
  compares hash strings for equality, and concrete instances use a
  simple executable stand-in.
* JavaScript values that can be `undefined`, `null` or a string (the
  `sha1` fields, and the result of `getFileSha1`) are modelled by
  `JsVal`; JavaScript strict (in)equality `===`/`!==` is `JsVal`
  equality, and JS truthiness tests (`!expectedSha1`) are `JsVal.falsy`.
* The local filesystem under the game directory is an association list
  from game-dir-relative slash paths to contents; `path.join(gameDir, p)`
  is injective in `p` for a fixed game directory, so the embedding keys
  every file by its relative path and drops the common prefix.
* Network I/O is a function from URL to a `NetResult`: either the full
  body, or a failure that may have left a partially written body.
  Promise rejection is modelled with `Except`; a stateful async call
  returns the updated filesystem together with its outcome.
-/

namespace NaizoLauncher

/-- Byte content of a file. -/
abbrev Content := List Nat

/-- A JavaScript value that is `undefined`, `null`, or a string.  Used for
the `sha1` fields of manifest entries (absent field gives `undefined`)
and for the result of `ModpackManager.getFileSha1` (which returns `null`
for a missing file). -/
inductive JsVal where
  | undefined
  | null
  | str (s : String)
deriving DecidableEq, Repr

/-- JS falsiness of such a value: `undefined`, `null` and the empty
string are falsy.  This is the `!expectedSha1` test in the source. -/
def JsVal.falsy : JsVal → Bool
  | .undefined => true
  | .null => true
  | .str s => decide (s = "")

/-- Local filesystem state: association list from game-dir-relative slash
path to file content.  A later write shadows earlier entries with the
same path. -/
abbrev FS := List (String × Content)

/-- Read the file at a path (first matching entry). -/
def fsLookup (fs : FS) (p : String) : Option Content :=
  (fs.find? (fun e => decide (e.1 = p))).map (·.2)

/-- Write (create or overwrite) the file at a path. -/
def fsWrite (fs : FS) (p : String) (c : Content) : FS :=
  (p, c) :: fs

/-- Unlink the file at a path (no error if absent, matching the ignored
unlink failures in the source). -/
def fsDelete (fs : FS) (p : String) : FS :=
  fs.filter (fun e => decide (e.1 ≠ p))

/-- Outcome of one HTTP GET of a URL: the full body, or a failure
(network error, timeout or HTTP error) that may have left a partial
body on disk before the error surfaced. -/
inductive NetResult where
  | ok (c : Content)
  | fail (leftover : Option Content) (msg : String)

/-- The network, as a function from URL to result. -/
abbrev Net := String → NetResult

/-- An abstract content-fingerprint function (SHA1 hex in the source). -/
abbrev Hash := Content → String

/-- Model of JavaScript String.prototype.endsWith, computed on the
character list of the string (Lean's String.endsWith is byte-position
based and does not reduce in the kernel). -/
def jsEndsWith (s suffix : String) : Bool :=
  suffix.data.isSuffixOf s.data

/-- Model of JavaScript String.prototype.startsWith on character lists;
used for the directory-prefix tests of the cleanup scan. -/
def jsStartsWith (s pre : String) : Bool :=
  pre.data.isPrefixOf s.data

/-- Model of node's path.basename for slash paths: the characters after
the last slash. -/
def jsBasename (s : String) : String :=
  String.mk ((s.data.reverse.takeWhile (fun ch => decide (ch ≠ '/'))).reverse)

/-- Embedding of downloadFile (src/file-manager/downloader.js): stream
the URL's body to destPath; on any failure, unlink whatever was written
at destPath and propagate the error. -/
def downloadFile (net : Net) (fs : FS) (url destPath : String) :
    FS × Except String Unit :=
  match net url with
  | .ok c => (fsWrite fs destPath c, .ok ())
  | .fail leftover msg =>
      let fs1 := match leftover with
        | some pc => fsWrite fs destPath pc
        | none => fs
      (fsDelete fs1 destPath, .error msg)

/-- Embedding of downloadAndVerify (src/file-manager/downloader.js):
download, then, when a SHA1 is provided, read the written file back and
compare fingerprints, deleting the file on mismatch. -/
def downloadAndVerify (hash : Hash) (net : Net) (fs : FS)
    (url destPath : String) (expectedSha1 : JsVal) :
    FS × Except String Unit :=
  match downloadFile net fs url destPath with
  | (fs1, .error e) => (fs1, .error e)
  | (fs1, .ok _) =>
    if expectedSha1.falsy then (fs1, .ok ())
    else
      match fsLookup fs1 destPath with
      | none => (fs1, .error ("ENOENT: " ++ destPath))
      | some c =>
        if JsVal.str (hash c) = expectedSha1 then (fs1, .ok ())
        else (fsDelete fs1 destPath,
              .error ("SHA1 verification failed for " ++ jsBasename destPath))

/-- DOWNLOAD_CONFIG.MAX_RETRIES. -/
def MAX_RETRIES : Nat := 3

/-- DOWNLOAD_CONFIG.RETRY_BASE_DELAY_MS. -/
def RETRY_BASE_DELAY_MS : Nat := 1000

/-- Result of a retried download: how many times the wrapped action ran,
the total milliseconds slept between attempts, the final filesystem, and
the outcome. -/
structure RetryOut where
  invocations : Nat
  sleptMs : Nat
  fs : FS
  result : Except String Unit
deriving Repr

/-- The retry loop of downloadWithRetry, unrolled on the number of
remaining attempts.  The network is indexed by attempt number so that
successive attempts of the same transfer may behave differently. -/
def retryFrom (hash : Hash) (netAt : Nat → Net) (url destPath : String)
    (expectedSha1 : JsVal) :
    Nat → Nat → String → FS → RetryOut
  | 0, _, lastErr, fs =>
      { invocations := 0, sleptMs := 0, fs := fs,
        result := .error ("Failed to download " ++ jsBasename destPath ++
          " after " ++ toString MAX_RETRIES ++ " attempts: " ++ lastErr) }
  | remaining + 1, attempt, _, fs =>
      match downloadAndVerify hash (netAt attempt) fs url destPath expectedSha1 with
      | (fs1, .ok _) =>
          { invocations := 1, sleptMs := 0, fs := fs1, result := .ok () }
      | (fs1, .error e) =>
          let delay := if attempt < MAX_RETRIES
            then RETRY_BASE_DELAY_MS * 2 ^ (attempt - 1) else 0
          let rest := retryFrom hash netAt url destPath expectedSha1
            remaining (attempt + 1) e fs1
          { rest with invocations := rest.invocations + 1,
                      sleptMs := rest.sleptMs + delay }

/-- Embedding of downloadWithRetry (src/file-manager/downloader.js):
up to MAX_RETRIES attempts of downloadAndVerify with exponential
backoff sleeps between attempts. -/
def downloadWithRetry (hash : Hash) (netAt : Nat → Net)
    (url destPath : String) (expectedSha1 : JsVal) (fs : FS) : RetryOut :=
  retryFrom hash netAt url destPath expectedSha1 MAX_RETRIES 1 "" fs

/-- Files that regenerate on each Minecraft launch with unique data
(the VOLATILE_FILES list of the modpack manager). -/
def VOLATILE_FILES : List String :=
  ["config/sodium-fingerprint.json",
   "config/voicechat/username-cache.json",
   "config/jade/usernamecache.json",
   "config/yosbr/options.txt"]

/-- The volatile-skip test of validateLocalFiles:
VOLATILE_FILES.some(v => file.path === v || file.path.endsWith(v)). -/
def isVolatile (p : String) : Bool :=
  VOLATILE_FILES.any (fun v => decide (p = v) || jsEndsWith p v)

/-- One entry of the modpack manifest's files array.  An absent sha1
field is JsVal.undefined; a JSON null is JsVal.null. -/
structure ManifestFile where
  path : String
  sha1 : JsVal
  size : Nat
  url : String
deriving DecidableEq, Repr

/-- The modpack manifest. -/
structure Manifest where
  version : String
  files : List ManifestFile
deriving DecidableEq, Repr

/-- One element of the filesToDownload list built by validateLocalFiles.
Its path field is the destination path; since the embedding keys the
filesystem by game-dir-relative paths, that is the manifest entry's
path. -/
structure DlItem where
  url : String
  path : String
  sha1 : JsVal
  size : Nat
deriving DecidableEq, Repr

/-- The download-list element built from a manifest entry. -/
def mkDlItem (f : ManifestFile) : DlItem :=
  { url := f.url, path := f.path, sha1 := f.sha1, size := f.size }

/-- Embedding of ModpackManager.getFileSha1: the SHA1 of the local file,
or null when the file does not exist (the ENOENT branch). -/
def getFileSha1 (hash : Hash) (fs : FS) (p : String) : JsVal :=
  match fsLookup fs p with
  | none => .null
  | some c => .str (hash c)

/-- One iteration of the validateLocalFiles loop: skip volatile paths,
otherwise schedule the entry for download when the local SHA1 is
strictly different (JS !==) from the manifest's sha1 field. -/
def validateStep (hash : Hash) (fs : FS) (file : ManifestFile) : Option DlItem :=
  if isVolatile file.path then none
  else if getFileSha1 hash fs file.path ≠ file.sha1 then some (mkDlItem file)
  else none

/-- The validateLocalFiles loop over a files list. -/
def validateFiles (hash : Hash) (fs : FS) (files : List ManifestFile) : List DlItem :=
  files.filterMap (validateStep hash fs)

/-- Embedding of ModpackManager.validateLocalFiles: the list of files
that need to be downloaded or updated.  (The source's manifest.files ||
[] guard is absorbed by the files list always being present here.) -/
def validateLocalFiles (hash : Hash) (fs : FS) (manifest : Manifest) : List DlItem :=
  validateFiles hash fs manifest.files

/-- Embedding of ModpackManager.downloadUpdates: download each scheduled
file in order with downloadFile, then verify — a SHA1 mismatch is a hard
error for .jar files and only a logged warning (treated as success) for
any other file. -/
def downloadUpdates (hash : Hash) (net : Net) :
    FS → List DlItem → FS × Except String Unit
  | fs, [] => (fs, .ok ())
  | fs, item :: rest =>
    match downloadFile net fs item.url item.path with
    | (fs1, .error e) => (fs1, .error e)
    | (fs1, .ok _) =>
      if getFileSha1 hash fs1 item.path ≠ item.sha1 then
        if jsEndsWith item.path ".jar" then
          (fs1, .error ("Verification failed for " ++ item.path))
        else
          downloadUpdates hash net fs1 rest
      else
        downloadUpdates hash net fs1 rest

/-- The fixed set of subdirectories scanned by cleanupExtraFiles. -/
def foldersToClean : List String :=
  ["mods", "config", "resourcepacks", "shaderpacks"]

/-- Whether a relative path lies inside one of the cleaned folders, i.e.
whether the recursive scanAndDelete walk reaches it. -/
def underCleanedFolder (rel : String) : Bool :=
  foldersToClean.any (fun folder => jsStartsWith rel (folder ++ "/"))

/-- Whether scanAndDelete keeps the file at a relative path: files
outside the cleaned folders are never visited, and a visited file is
kept exactly when its relative path is in the manifest's path set.
Note that no volatile-pattern check appears here, mirroring the
source. -/
def keptByCleanup (manifestPaths : List String) (p : String) : Bool :=
  !(underCleanedFolder p) || decide (p ∈ manifestPaths)

/-- Embedding of ModpackManager.cleanupExtraFiles / scanAndDelete:
delete every local file under mods/, config/, resourcepacks/ or
shaderpacks/ whose relative path is not in the manifest's entry set. -/
def cleanupExtraFiles (fs : FS) (manifest : Manifest) : FS :=
  fs.filter (fun e => keptByCleanup (manifest.files.map (·.path)) e.1)

/-- Embedding of ModpackManager.sync: no-op on a falsy manifest URL,
otherwise fetch the manifest, validate, download the updates, clean up
extra files, and return the applied manifest.  Any stage error is
propagated with the filesystem state it left behind. -/
def sync (hash : Hash) (fetchMan : String → Option Manifest) (net : Net)
    (manifestUrl : Option String) (fs : FS) :
    FS × Except String (Option Manifest) :=
  match manifestUrl with
  | none => (fs, .ok none)
  | some url =>
    match fetchMan url with
    | none => (fs, .error "Failed to fetch modpack manifest")
    | some manifest =>
      match downloadUpdates hash net fs (validateLocalFiles hash fs manifest) with
      | (fs1, .error e) => (fs1, .error e)
      | (fs1, .ok _) => (cleanupExtraFiles fs1 manifest, .ok (some manifest))

/-- Embedding of fileExists (installation validator). -/
def fileExists (fs : FS) (p : String) : Bool :=
  (fsLookup fs p).isSome

/-- Embedding of validateFile (installation validator): false when the
file is absent; true on mere existence when no hash is provided (the
!expectedSha1 falsiness test); otherwise a strict string comparison of
the computed SHA1 with the expected one. -/
def validateFile (hash : Hash) (fs : FS) (filePath : String)
    (expectedSha1 : JsVal) : Bool :=
  if !(fileExists fs filePath) then false
  else if expectedSha1.falsy then true
  else
    match fsLookup fs filePath with
    | some c => decide (JsVal.str (hash c) = expectedSha1)
    | none => false

/-- A game library entry of the version metadata. -/
structure GameLib where
  path : String
  sha1 : JsVal
  url : String
deriving DecidableEq, Repr

/-- A game asset entry (content-addressed object). -/
structure GameAsset where
  name : String
  path : String
  hash : JsVal
  url : String
deriving DecidableEq, Repr

/-- The assets section of the required-files record. -/
structure AssetsInfo where
  indexId : String
  assets : List GameAsset
deriving DecidableEq, Repr

/-- The client jar section of the required-files record. -/
structure ClientInfo where
  sha1 : JsVal
  url : String
deriving DecidableEq, Repr

/-- The requiredFiles record consumed by getMissingFiles. -/
structure RequiredFiles where
  version : String
  client : ClientInfo
  libraries : List GameLib
  assets : AssetsInfo
deriving DecidableEq, Repr

/-- The missing record produced by getMissingFiles. -/
structure MissingFiles where
  client : Option ClientInfo
  libraries : List GameLib
  assets : List GameAsset
  assetIndex : Option String
deriving DecidableEq, Repr

/-- Embedding of validateLibraries: the sublist of libraries whose file
under libraries/ fails validateFile. -/
def validateLibraries (hash : Hash) (fs : FS) (libraries : List GameLib) :
    List GameLib :=
  libraries.filter (fun lib => !(validateFile hash fs ("libraries/" ++ lib.path) lib.sha1))

/-- Embedding of getMissingFiles: checks the client jar and every
library by hash, but for assets only checks that the asset index file
exists — when it does, all assets are assumed valid (the source's
speed-up shortcut); when it does not, every asset is reported
missing. -/
def getMissingFiles (hash : Hash) (fs : FS) (rf : RequiredFiles) : MissingFiles :=
  let clientPath := "versions/" ++ rf.version ++ "/" ++ rf.version ++ ".jar"
  let clientValid := validateFile hash fs clientPath rf.client.sha1
  let missingLibraries := validateLibraries hash fs rf.libraries
  let assetIndexExists := fileExists fs ("assets/indexes/" ++ rf.assets.indexId ++ ".json")
  { client := if clientValid then none else some rf.client
    libraries := missingLibraries
    assets := if assetIndexExists then [] else rf.assets.assets
    assetIndex := if assetIndexExists then none else some rf.assets.indexId }

/-- The modpack section of the launcher configuration.  manifest_url is
none when the field is absent or empty (JS-falsy). -/
structure ModpackConfig where
  enabled : Bool
  manifest_url : Option String
deriving DecidableEq, Repr

/-- The slice of the launcher configuration that the modpack stage of
launchMinecraft reads. -/
structure LaunchConfig where
  modpack : Option ModpackConfig
deriving DecidableEq, Repr

/-- A status progress event sent to the onModpackProgress callback. -/
structure LaunchEvent where
  stage : String
  status : String
  message : String
deriving DecidableEq, Repr

/-- Embedding of launchMinecraft (src/launch/game-launcher.js),
abstracted over its collaborators: the username guard and the Java
availability check throw; the modpack stage then runs ModpackManager
sync when config.modpack && config.modpack.enabled &&
config.modpack.manifest_url, emitting a checking event first, a
complete event on success, and an error event carrying the error
message on failure — in which case the launch continues anyway.  The
remainder of the sequence (required files, natives, argument building,
spawn) is abstracted into restOutcome.  Only the status-bearing
modpack events are modelled; the result is the event list together
with the call's outcome. -/
def launchMinecraft (hash : Hash) (fetchMan : String → Option Manifest)
    (net : Net) (fs : FS) (username : String) (cfg : LaunchConfig)
    (javaAvailable : Bool) (restOutcome : Except String Unit) :
    List LaunchEvent × Except String Unit :=
  if username = "" then ([], .error "Username is required")
  else if !javaAvailable then ([], .error "Java is not installed or not found!")
  else
    let modpackEvents :=
      match cfg.modpack with
      | none => []
      | some m =>
        if m.enabled && m.manifest_url.isSome then
          match (sync hash fetchMan net m.manifest_url fs).2 with
          | .ok _ =>
              [{ stage := "modpack", status := "checking",
                 message := "Checking for mod updates..." },
               { stage := "modpack", status := "complete",
                 message := "Mods synced successfully" }]
          | .error msg =>
              [{ stage := "modpack", status := "checking",
                 message := "Checking for mod updates..." },
               { stage := "modpack", status := "error", message := msg }]
        else []
    (modpackEvents, restOutcome)

/-- Executable stand-in fingerprint used for concrete test instances:
the decimal length of the content. -/
def lenHash : Hash := fun c => toString c.length

end NaizoLauncher

namespace NaizoLauncher

theorem fsLookup_write_self (fs : FS) (p : String) (c : Content) :
    fsLookup (fsWrite fs p c) p = some c := by
  simp [fsLookup, fsWrite]

theorem fsLookup_write_ne (fs : FS) {p q : String} (c : Content) (h : q ≠ p) :
    fsLookup (fsWrite fs p c) q = fsLookup fs q := by
  simp [fsLookup, fsWrite, List.find?_cons_of_neg, Ne.symm h]

theorem fsLookup_delete_self (fs : FS) (p : String) :
    fsLookup (fsDelete fs p) p = none := by
  induction fs with
  | nil => rfl
  | cons e t ih =>
    by_cases h : e.1 = p
    · simpa [fsDelete, List.filter_cons, h] using ih
    · have h1 : fsDelete (e :: t) p = e :: fsDelete t p := by
        simp [fsDelete, List.filter_cons, h]
      rw [h1, fsLookup, List.find?_cons_of_neg _ (by simpa using h)]
      exact ih

theorem fsLookup_filter_of_keep {pred : String × Content → Bool} {p : String}
    (fs : FS) (h : ∀ c, pred (p, c) = true) :
    fsLookup (fs.filter pred) p = fsLookup fs p := by
  induction fs with
  | nil => rfl
  | cons e t ih =>
    by_cases hep : e.1 = p
    · have hpe : pred e = true := by
        have := h e.2
        rwa [show (p, e.2) = e by rw [← hep]] at this
      simp [fsLookup, List.filter_cons, hpe, hep]
    · cases hpe : pred e
      · simpa [fsLookup, List.filter_cons, hpe, List.find?_cons_of_neg, hep] using ih
      · simpa [fsLookup, List.filter_cons, hpe, List.find?_cons_of_neg, hep] using ih

theorem fsLookup_filter_of_drop {pred : String × Content → Bool} {p : String}
    (fs : FS) (h : ∀ c, pred (p, c) = false) :
    fsLookup (fs.filter pred) p = none := by
  induction fs with
  | nil => rfl
  | cons e t ih =>
    by_cases hep : e.1 = p
    · have hpe : pred e = false := by
        have := h e.2
        rwa [show (p, e.2) = e by rw [← hep]] at this
      simpa [fsLookup, List.filter_cons, hpe] using ih
    · cases hpe : pred e
      · simpa [fsLookup, List.filter_cons, hpe] using ih
      · simpa [fsLookup, List.filter_cons, hpe, List.find?_cons_of_neg, hep] using ih

theorem fsLookup_cleanup_of_mem (fs : FS) (m : Manifest) {p : String}
    (hp : p ∈ m.files.map (·.path)) :
    fsLookup (cleanupExtraFiles fs m) p = fsLookup fs p :=
  fsLookup_filter_of_keep fs (fun c => by simp [keptByCleanup, hp])

theorem fsLookup_cleanup_of_extra (fs : FS) (m : Manifest) {p : String}
    (hunder : underCleanedFolder p = true)
    (hp : p ∉ m.files.map (·.path)) :
    fsLookup (cleanupExtraFiles fs m) p = none :=
  fsLookup_filter_of_drop fs (fun c => by simp [keptByCleanup, hunder, hp])

/-- C7: for every call to downloadFile that fails for any reason, no
partially written file remains at destPath when the error is propagated:
the partial destination file is deleted before the error is rethrown. -/
theorem downloadFile_no_partial_on_error
    (net : Net) (fs : FS) (url destPath : String) (e : String)
    (herr : (downloadFile net fs url destPath).2 = .error e) :
    fsLookup (downloadFile net fs url destPath).1 destPath = none := by
  cases hnet : net url with
  | ok c => simp [downloadFile, hnet] at herr
  | fail leftover msg => simp [downloadFile, hnet, fsLookup_delete_self]

/-- A failing network stub that leaves a partial body behind. -/
def exNetFail : Net := fun _ => .fail (some [1]) "boom"

theorem downloadFile_no_partial_on_error_witness :
    fsLookup (downloadFile exNetFail [("d", [2])] "u" "d").1 "d" = none :=
  downloadFile_no_partial_on_error exNetFail [("d", [2])] "u" "d" "boom" rfl

/-- C6: on a completed transfer, a non-empty expected SHA1 that differs
from the written file's hash makes downloadAndVerify delete the file and
fail with the verification error, while an empty or absent expected SHA1
makes it succeed unconditionally, computing no hash (the outcome is the
same for every hash function). -/
theorem downloadAndVerify_verification_policy
    (hash : Hash) (net : Net) (fs : FS) (url destPath : String)
    (expectedSha1 : JsVal) (c : Content)
    (hnet : net url = .ok c) :
    (expectedSha1.falsy = false → JsVal.str (hash c) ≠ expectedSha1 →
      downloadAndVerify hash net fs url destPath expectedSha1 =
        (fsDelete (fsWrite fs destPath c) destPath,
         .error ("SHA1 verification failed for " ++ jsBasename destPath)) ∧
      fsLookup (downloadAndVerify hash net fs url destPath expectedSha1).1 destPath = none) ∧
    (expectedSha1.falsy = true →
      ∀ hash2 : Hash, downloadAndVerify hash2 net fs url destPath expectedSha1 =
        (fsWrite fs destPath c, .ok ())) := by
  constructor
  · intro hfal hmis
    have heq : downloadAndVerify hash net fs url destPath expectedSha1 =
        (fsDelete (fsWrite fs destPath c) destPath,
         .error ("SHA1 verification failed for " ++ jsBasename destPath)) := by
      simp [downloadAndVerify, downloadFile, hnet, hfal, fsLookup_write_self, hmis]
    exact ⟨heq, by rw [heq]; exact fsLookup_delete_self _ _⟩
  · intro hfal hash2
    simp [downloadAndVerify, downloadFile, hnet, hfal]

/-- A network stub whose every URL serves the one-byte body 7. -/
def exNetU7 : Net := fun _ => .ok [7]

theorem downloadAndVerify_verification_policy_witness :
    (downloadAndVerify lenHash exNetU7 [] "u" "mods/a.jar" (JsVal.str "9") =
      (fsDelete (fsWrite [] "mods/a.jar" [7]) "mods/a.jar",
       .error ("SHA1 verification failed for " ++ jsBasename "mods/a.jar")) ∧
     fsLookup (downloadAndVerify lenHash exNetU7 [] "u" "mods/a.jar" (JsVal.str "9")).1
       "mods/a.jar" = none) ∧
    downloadAndVerify lenHash exNetU7 [] "u" "cfg" JsVal.undefined =
      (fsWrite [] "cfg" [7], .ok ()) :=
  ⟨(downloadAndVerify_verification_policy lenHash exNetU7 [] "u" "mods/a.jar"
      (JsVal.str "9") [7] rfl).1 (by decide) (by decide),
   (downloadAndVerify_verification_policy lenHash exNetU7 [] "u" "cfg"
      JsVal.undefined [7] rfl).2 (by decide) lenHash⟩

/-- C5: in downloadUpdates, a post-download SHA1 mismatch on a file
whose path ends in .jar aborts the whole call with the verification
error, while the same mismatch on any other path is tolerated: the loop
continues with the remaining files and the written file stays on disk. -/
theorem downloadUpdates_jar_strict_config_advisory
    (hash : Hash) (net : Net) (fs : FS) (item : DlItem) (rest : List DlItem)
    (c : Content)
    (hnet : net item.url = .ok c)
    (hmis : JsVal.str (hash c) ≠ item.sha1) :
    (jsEndsWith item.path ".jar" = true →
      downloadUpdates hash net fs (item :: rest) =
        (fsWrite fs item.path c, .error ("Verification failed for " ++ item.path))) ∧
    (jsEndsWith item.path ".jar" = false →
      downloadUpdates hash net fs (item :: rest) =
        downloadUpdates hash net (fsWrite fs item.path c) rest ∧
      fsLookup (fsWrite fs item.path c) item.path = some c) := by
  have hsha : getFileSha1 hash (fsWrite fs item.path c) item.path = JsVal.str (hash c) := by
    simp [getFileSha1, fsLookup_write_self]
  constructor
  · intro hjar
    simp [downloadUpdates, downloadFile, hnet, hsha, hmis, hjar]
  · intro hjar
    exact ⟨by simp [downloadUpdates, downloadFile, hnet, hsha, hmis, hjar],
           fsLookup_write_self _ _ _⟩

/-- A scheduled jar download whose served bytes do not hash to the
declared sha1. -/
def exItemJarBad : DlItem :=
  { url := "u", path := "mods/a.jar", sha1 := .str "9", size := 1 }

/-- A scheduled config download whose served bytes do not hash to the
declared sha1. -/
def exItemCfgBad : DlItem :=
  { url := "u", path := "config/a.txt", sha1 := .str "9", size := 1 }

theorem downloadUpdates_jar_strict_config_advisory_witness :
    (downloadUpdates lenHash exNetU7 [] [exItemJarBad] =
      (fsWrite [] exItemJarBad.path [7],
       .error ("Verification failed for " ++ exItemJarBad.path))) ∧
    (downloadUpdates lenHash exNetU7 [] [exItemCfgBad] =
      downloadUpdates lenHash exNetU7 (fsWrite [] exItemCfgBad.path [7]) [] ∧
     fsLookup (fsWrite [] exItemCfgBad.path [7]) exItemCfgBad.path = some [7]) :=
  ⟨(downloadUpdates_jar_strict_config_advisory lenHash exNetU7 [] exItemJarBad [] [7]
      rfl (by decide)).1 (by decide),
   (downloadUpdates_jar_strict_config_advisory lenHash exNetU7 [] exItemCfgBad [] [7]
      rfl (by decide)).2 (by decide)⟩

end NaizoLauncher

namespace NaizoLauncher

theorem downloadAndVerify_net_fail_none (hash : Hash) (net : Net) (fs : FS)
    (url destPath : String) (sha : JsVal) (msg : String)
    (h : net url = .fail none msg) :
    downloadAndVerify hash net fs url destPath sha =
      (fsDelete fs destPath, .error msg) := by
  simp [downloadAndVerify, downloadFile, h]

theorem downloadAndVerify_net_ok (hash : Hash) (net : Net) (fs : FS)
    (url destPath : String) (sha : JsVal) (c : Content)
    (h : net url = .ok c)
    (hver : sha.falsy = true ∨ JsVal.str (hash c) = sha) :
    downloadAndVerify hash net fs url destPath sha =
      (fsWrite fs destPath c, .ok ()) := by
  rcases hver with hv | hv
  · simp [downloadAndVerify, downloadFile, h, hv]
  · cases hfal : sha.falsy
    · simp [downloadAndVerify, downloadFile, h, hfal, fsLookup_write_self, hv]
    · simp [downloadAndVerify, downloadFile, h, hfal]

theorem retryFrom_zero (hash : Hash) (netAt : Nat → Net) (url destPath : String)
    (sha : JsVal) (attempt : Nat) (lastErr : String) (fs : FS) :
    retryFrom hash netAt url destPath sha 0 attempt lastErr fs =
      { invocations := 0, sleptMs := 0, fs := fs,
        result := .error ("Failed to download " ++ jsBasename destPath ++
          " after " ++ toString MAX_RETRIES ++ " attempts: " ++ lastErr) } := rfl

theorem retryFrom_succ_ok (hash : Hash) (netAt : Nat → Net) (url destPath : String)
    (sha : JsVal) (remaining attempt : Nat) (lastErr : String) (fs fs1 : FS)
    (h : downloadAndVerify hash (netAt attempt) fs url destPath sha = (fs1, .ok ())) :
    retryFrom hash netAt url destPath sha (remaining + 1) attempt lastErr fs =
      { invocations := 1, sleptMs := 0, fs := fs1, result := .ok () } := by
  rw [retryFrom, h]

theorem retryFrom_succ_fail (hash : Hash) (netAt : Nat → Net) (url destPath : String)
    (sha : JsVal) (remaining attempt : Nat) (lastErr : String) (fs fs1 : FS)
    (msg : String)
    (h : downloadAndVerify hash (netAt attempt) fs url destPath sha = (fs1, .error msg)) :
    retryFrom hash netAt url destPath sha (remaining + 1) attempt lastErr fs =
      { invocations :=
          (retryFrom hash netAt url destPath sha remaining (attempt + 1) msg fs1).invocations + 1,
        sleptMs :=
          (retryFrom hash netAt url destPath sha remaining (attempt + 1) msg fs1).sleptMs +
            (if attempt < MAX_RETRIES then RETRY_BASE_DELAY_MS * 2 ^ (attempt - 1) else 0),
        fs := (retryFrom hash netAt url destPath sha remaining (attempt + 1) msg fs1).fs,
        result := (retryFrom hash netAt url destPath sha remaining (attempt + 1) msg fs1).result } := by
  rw [retryFrom, h]

/-- C8: an action that fails on its first k invocations and succeeds on
invocation k+1, with k+1 within MAX_RETRIES, makes downloadWithRetry
return the success result after exactly k+1 invocations, and the total
delay slept between attempts is at least RETRY_BASE_DELAY_MS times the
geometric sum 2^0 + ... + 2^(k-1). -/
theorem downloadWithRetry_succeeds_with_backoff
    (hash : Hash) (netAt : Nat → Net) (url destPath : String)
    (expectedSha1 : JsVal) (fs : FS) (k : Nat) (e : Nat → String) (c : Content)
    (hk : k + 1 ≤ MAX_RETRIES)
    (hfail : ∀ i, 1 ≤ i → i ≤ k → netAt i url = .fail none (e i))
    (hsucc : netAt (k + 1) url = .ok c)
    (hver : expectedSha1.falsy = true ∨ JsVal.str (hash c) = expectedSha1) :
    (downloadWithRetry hash netAt url destPath expectedSha1 fs).result = .ok () ∧
    (downloadWithRetry hash netAt url destPath expectedSha1 fs).invocations = k + 1 ∧
    RETRY_BASE_DELAY_MS * (Finset.range k).sum (fun i => 2 ^ i) ≤
      (downloadWithRetry hash netAt url destPath expectedSha1 fs).sleptMs := by
  have hk2 : k ≤ 2 := by
    have h3 : k + 1 ≤ 3 := hk
    omega
  interval_cases k
  · have d1 := downloadAndVerify_net_ok hash (netAt 1) fs url destPath expectedSha1 c
      hsucc hver
    have E : downloadWithRetry hash netAt url destPath expectedSha1 fs =
        { invocations := 1, sleptMs := 0, fs := fsWrite fs destPath c, result := .ok () } :=
      retryFrom_succ_ok hash netAt url destPath expectedSha1 2 1 "" fs _ d1
    rw [E]
    refine ⟨rfl, rfl, ?_⟩
    simp
  · have d1 := downloadAndVerify_net_fail_none hash (netAt 1) fs url destPath expectedSha1
      (e 1) (hfail 1 (by norm_num) (by norm_num))
    have d2 := downloadAndVerify_net_ok hash (netAt 2) (fsDelete fs destPath) url destPath
      expectedSha1 c hsucc hver
    have r2 : retryFrom hash netAt url destPath expectedSha1 2 2 (e 1) (fsDelete fs destPath) =
        { invocations := 1, sleptMs := 0, fs := fsWrite (fsDelete fs destPath) destPath c,
          result := .ok () } :=
      retryFrom_succ_ok hash netAt url destPath expectedSha1 1 2 (e 1) _ _ d2
    have r1 := retryFrom_succ_fail hash netAt url destPath expectedSha1 2 1 "" fs _ (e 1) d1
    rw [r2] at r1
    have E : downloadWithRetry hash netAt url destPath expectedSha1 fs =
        { invocations := 1 + 1,
          sleptMs := 0 + (if 1 < MAX_RETRIES then RETRY_BASE_DELAY_MS * 2 ^ (1 - 1) else 0),
          fs := fsWrite (fsDelete fs destPath) destPath c, result := .ok () } := r1
    rw [E]
    refine ⟨rfl, rfl, ?_⟩
    norm_num [MAX_RETRIES, RETRY_BASE_DELAY_MS]
  · have d1 := downloadAndVerify_net_fail_none hash (netAt 1) fs url destPath expectedSha1
      (e 1) (hfail 1 (by norm_num) (by norm_num))
    have d2 := downloadAndVerify_net_fail_none hash (netAt 2) (fsDelete fs destPath) url
      destPath expectedSha1 (e 2) (hfail 2 (by norm_num) (by norm_num))
    have d3 := downloadAndVerify_net_ok hash (netAt 3)
      (fsDelete (fsDelete fs destPath) destPath) url destPath expectedSha1 c hsucc hver
    have r3 : retryFrom hash netAt url destPath expectedSha1 1 3 (e 2)
        (fsDelete (fsDelete fs destPath) destPath) =
        { invocations := 1, sleptMs := 0,
          fs := fsWrite (fsDelete (fsDelete fs destPath) destPath) destPath c,
          result := .ok () } :=
      retryFrom_succ_ok hash netAt url destPath expectedSha1 0 3 (e 2) _ _ d3
    have r2 := retryFrom_succ_fail hash netAt url destPath expectedSha1 1 2 (e 1)
      (fsDelete fs destPath) _ (e 2) d2
    rw [r3] at r2
    have r1 := retryFrom_succ_fail hash netAt url destPath expectedSha1 2 1 "" fs _ (e 1) d1
    rw [r2] at r1
    have E : downloadWithRetry hash netAt url destPath expectedSha1 fs =
        { invocations := 1 + 1 + 1,
          sleptMs := (0 + (if 2 < MAX_RETRIES then RETRY_BASE_DELAY_MS * 2 ^ (2 - 1) else 0)) +
            (if 1 < MAX_RETRIES then RETRY_BASE_DELAY_MS * 2 ^ (1 - 1) else 0),
          fs := fsWrite (fsDelete (fsDelete fs destPath) destPath) destPath c,
          result := .ok () } := r1
    rw [E]
    refine ⟨rfl, rfl, ?_⟩
    norm_num [MAX_RETRIES, RETRY_BASE_DELAY_MS]

/-- An attempt-indexed network that fails twice and then serves the
body. -/
def exNetAtTwoFails : Nat → Net := fun i _ =>
  if i ≤ 2 then .fail none "e" else .ok [7]

theorem downloadWithRetry_succeeds_with_backoff_witness :
    (downloadWithRetry lenHash exNetAtTwoFails "u" "d" (JsVal.str "1") []).result = .ok () ∧
    (downloadWithRetry lenHash exNetAtTwoFails "u" "d" (JsVal.str "1") []).invocations = 2 + 1 ∧
    RETRY_BASE_DELAY_MS * (Finset.range 2).sum (fun i => 2 ^ i) ≤
      (downloadWithRetry lenHash exNetAtTwoFails "u" "d" (JsVal.str "1") []).sleptMs :=
  downloadWithRetry_succeeds_with_backoff lenHash exNetAtTwoFails "u" "d" (JsVal.str "1")
    [] 2 (fun _ => "e") [7] (by decide)
    (fun i h1 h2 => by interval_cases i <;> rfl) rfl (by decide)

/-- C9: when every one of the MAX_RETRIES attempts fails,
downloadWithRetry invokes the action exactly MAX_RETRIES times and then
fails with an error that reports the attempt count and wraps the last
attempt's error message. -/
theorem downloadWithRetry_exhaustion
    (hash : Hash) (netAt : Nat → Net) (url destPath : String)
    (expectedSha1 : JsVal) (fs : FS) (e : Nat → String)
    (hfail : ∀ i, 1 ≤ i → i ≤ MAX_RETRIES → netAt i url = .fail none (e i)) :
    (downloadWithRetry hash netAt url destPath expectedSha1 fs).invocations = MAX_RETRIES ∧
    (downloadWithRetry hash netAt url destPath expectedSha1 fs).result =
      .error ("Failed to download " ++ jsBasename destPath ++ " after " ++
        toString MAX_RETRIES ++ " attempts: " ++ e MAX_RETRIES) := by
  have d1 := downloadAndVerify_net_fail_none hash (netAt 1) fs url destPath expectedSha1
    (e 1) (hfail 1 (by norm_num [MAX_RETRIES]) (by norm_num [MAX_RETRIES]))
  have d2 := downloadAndVerify_net_fail_none hash (netAt 2) (fsDelete fs destPath) url
    destPath expectedSha1 (e 2) (hfail 2 (by norm_num [MAX_RETRIES]) (by norm_num [MAX_RETRIES]))
  have d3 := downloadAndVerify_net_fail_none hash (netAt 3)
    (fsDelete (fsDelete fs destPath) destPath) url destPath expectedSha1 (e 3)
    (hfail 3 (by norm_num [MAX_RETRIES]) (by norm_num [MAX_RETRIES]))
  have r0 := retryFrom_zero hash netAt url destPath expectedSha1 4 (e 3)
    (fsDelete (fsDelete (fsDelete fs destPath) destPath) destPath)
  have r3 := retryFrom_succ_fail hash netAt url destPath expectedSha1 0 3 (e 2)
    (fsDelete (fsDelete fs destPath) destPath) _ (e 3) d3
  rw [r0] at r3
  have r2 := retryFrom_succ_fail hash netAt url destPath expectedSha1 1 2 (e 1)
    (fsDelete fs destPath) _ (e 2) d2
  rw [r3] at r2
  have r1 := retryFrom_succ_fail hash netAt url destPath expectedSha1 2 1 "" fs _ (e 1) d1
  rw [r2] at r1
  have E : downloadWithRetry hash netAt url destPath expectedSha1 fs =
      { invocations := 0 + 1 + 1 + 1,
        sleptMs := ((0 + (if 3 < MAX_RETRIES then RETRY_BASE_DELAY_MS * 2 ^ (3 - 1) else 0)) +
            (if 2 < MAX_RETRIES then RETRY_BASE_DELAY_MS * 2 ^ (2 - 1) else 0)) +
          (if 1 < MAX_RETRIES then RETRY_BASE_DELAY_MS * 2 ^ (1 - 1) else 0),
        fs := fsDelete (fsDelete (fsDelete fs destPath) destPath) destPath,
        result := .error ("Failed to download " ++ jsBasename destPath ++ " after " ++
          toString MAX_RETRIES ++ " attempts: " ++ e 3) } := r1
  rw [E]
  exact ⟨rfl, rfl⟩

/-- An attempt-indexed network that always fails. -/
def exNetAtAllFail : Nat → Net := fun _ _ => .fail none "boom"

theorem downloadWithRetry_exhaustion_witness :
    (downloadWithRetry lenHash exNetAtAllFail "u" "d" (JsVal.str "1") []).invocations =
      MAX_RETRIES ∧
    (downloadWithRetry lenHash exNetAtAllFail "u" "d" (JsVal.str "1") []).result =
      .error ("Failed to download " ++ jsBasename "d" ++ " after " ++
        toString MAX_RETRIES ++ " attempts: " ++ "boom") :=
  downloadWithRetry_exhaustion lenHash exNetAtAllFail "u" "d" (JsVal.str "1") []
    (fun _ => "boom") (fun _ _ _ => rfl)

end NaizoLauncher

namespace NaizoLauncher

/-- C10: when modpack syncing is enabled and the sync fails, the launch
emits the checking event followed by a modpack/error progress event
carrying the error message, and the call's outcome is exactly the
outcome of the remaining launch sequence — a modpack sync failure never
causes launchMinecraft itself to fail. -/
theorem launch_continues_after_modpack_sync_error
    (hash : Hash) (fetchMan : String → Option Manifest) (net : Net) (fs : FS)
    (username : String) (cfg : LaunchConfig) (restOutcome : Except String Unit)
    (m : ModpackConfig) (msg : String)
    (huser : username ≠ "")
    (hmod : cfg.modpack = some m)
    (hen : m.enabled = true)
    (hurl : m.manifest_url.isSome = true)
    (hsync : (sync hash fetchMan net m.manifest_url fs).2 = .error msg) :
    launchMinecraft hash fetchMan net fs username cfg true restOutcome =
      ([{ stage := "modpack", status := "checking",
          message := "Checking for mod updates..." },
        { stage := "modpack", status := "error", message := msg }], restOutcome) := by
  simp [launchMinecraft, huser, hmod, hen, hurl, hsync]

/-- A launcher configuration with modpack syncing enabled. -/
def exCfgModpack : LaunchConfig :=
  { modpack := some { enabled := true, manifest_url := some "mu" } }

theorem launch_continues_after_modpack_sync_error_witness :
    launchMinecraft lenHash (fun _ => none) exNetU7 [] "player" exCfgModpack true
        (.ok ()) =
      ([{ stage := "modpack", status := "checking",
          message := "Checking for mod updates..." },
        { stage := "modpack", status := "error",
          message := "Failed to fetch modpack manifest" }], .ok ()) :=
  launch_continues_after_modpack_sync_error lenHash (fun _ => none) exNetU7 []
    "player" exCfgModpack (.ok ()) { enabled := true, manifest_url := some "mu" }
    "Failed to fetch modpack manifest" (by decide) rfl rfl rfl rfl

theorem validateStep_eq_some {hash : Hash} {fs : FS} {file : ManifestFile}
    {item : DlItem} :
    validateStep hash fs file = some item ↔
      isVolatile file.path = false ∧ getFileSha1 hash fs file.path ≠ file.sha1 ∧
        item = mkDlItem file := by
  unfold validateStep
  cases hv : isVolatile file.path <;>
    by_cases hs : getFileSha1 hash fs file.path = file.sha1 <;>
      simp [hv, hs, eq_comm]

theorem mem_validateFiles {hash : Hash} {fs : FS} {files : List ManifestFile}
    {item : DlItem} :
    item ∈ validateFiles hash fs files ↔
      ∃ file ∈ files, validateStep hash fs file = some item := by
  simp [validateFiles, List.mem_filterMap]

theorem validateStep_mem_of (hash : Hash) (fs : FS) {files : List ManifestFile}
    {file : ManifestFile} (hmem : file ∈ files)
    (hv : isVolatile file.path = false)
    (hs : getFileSha1 hash fs file.path ≠ file.sha1) :
    mkDlItem file ∈ validateFiles hash fs files :=
  mem_validateFiles.mpr ⟨file, hmem, validateStep_eq_some.mpr ⟨hv, hs, rfl⟩⟩

/-- C1 as amended: every element of the download list computed by
validateLocalFiles comes from a non-volatile manifest entry (so a
volatile-matching path never appears in it), while the cleanup stage
consults only the manifest's path set: any path inside a cleaned folder
that is missing from the manifest — volatile or not — ends up absent
after cleanupExtraFiles. -/
theorem validate_skips_volatile_and_cleanup_ignores_volatile :
    (∀ (hash : Hash) (fs : FS) (m : Manifest) (item : DlItem),
        item ∈ validateLocalFiles hash fs m → isVolatile item.path = false) ∧
    (∀ (fs : FS) (m : Manifest) (p : String),
        underCleanedFolder p = true → p ∉ m.files.map (·.path) →
        fsLookup (cleanupExtraFiles fs m) p = none) := by
  constructor
  · intro hash fs m item hmem
    rcases mem_validateFiles.mp hmem with ⟨file, _, hstep⟩
    rcases validateStep_eq_some.mp hstep with ⟨hv, _, rfl⟩
    exact hv
  · intro fs m p hunder hp
    exact fsLookup_cleanup_of_extra fs m hunder hp

/-- A manifest whose files list is empty. -/
def exManifestEmpty : Manifest := { version := "1", files := [] }

/-- A local tree holding only a volatile file under config/. -/
def exVolatileFS : FS := [("config/sodium-fingerprint.json", [0])]

/-- A one-jar manifest used to exercise the validation path. -/
def exManifestJar : Manifest :=
  { version := "1",
    files := [{ path := "mods/a.jar", sha1 := .str "1", size := 1, url := "u" }] }

theorem validate_skips_volatile_and_cleanup_ignores_volatile_witness :
    isVolatile
        (mkDlItem { path := "mods/a.jar", sha1 := .str "1", size := 1, url := "u" }).path =
      false ∧
    fsLookup (cleanupExtraFiles exVolatileFS exManifestEmpty)
      "config/sodium-fingerprint.json" = none :=
  ⟨validate_skips_volatile_and_cleanup_ignores_volatile.1 lenHash [] exManifestJar
      _ (by decide),
   validate_skips_volatile_and_cleanup_ignores_volatile.2 exVolatileFS exManifestEmpty
      "config/sodium-fingerprint.json" (by decide) (by decide)⟩

/-- C1 counterexample: a locally present volatile file that is absent
from the manifest is deleted by a successful sync's cleanup stage, so
the claim that cleanup never deletes a volatile-matching path is false
on the code. -/
theorem volatile_file_deleted_by_sync_cleanup_cex :
    isVolatile "config/sodium-fingerprint.json" = true ∧
    fsLookup exVolatileFS "config/sodium-fingerprint.json" = some [0] ∧
    (sync lenHash (fun _ => some exManifestEmpty) exNetU7 (some "mu") exVolatileFS).2 =
      .ok (some exManifestEmpty) ∧
    fsLookup
      (sync lenHash (fun _ => some exManifestEmpty) exNetU7 (some "mu") exVolatileFS).1
      "config/sodium-fingerprint.json" = none :=
  ⟨by decide, by decide, rfl, by decide⟩

end NaizoLauncher

namespace NaizoLauncher

/-- C3 as amended: the installation validator's validateFile treats an
entry with an empty or absent fingerprint as satisfied by mere
existence, but ModpackManager.validateLocalFiles does not: its strict
comparison against the raw sha1 field schedules a non-volatile entry
with an empty or absent sha1 for download even when a local file is
present (whenever the computed hash string differs from the empty
string). -/
theorem empty_fingerprint_validateFile_vs_validateLocalFiles :
    (∀ (hash : Hash) (fs : FS) (p : String) (sha : JsVal),
        fileExists fs p = true → sha.falsy = true →
        validateFile hash fs p sha = true) ∧
    (∀ (hash : Hash) (fs : FS) (m : Manifest) (file : ManifestFile) (c : Content),
        file ∈ m.files → isVolatile file.path = false →
        (file.sha1 = .undefined ∨ file.sha1 = .str "") →
        fsLookup fs file.path = some c → hash c ≠ "" →
        mkDlItem file ∈ validateLocalFiles hash fs m) := by
  constructor
  · intro hash fs p sha hex hfal
    simp [validateFile, hex, hfal]
  · intro hash fs m file c hmem hv hsha hlook hhash
    refine validateStep_mem_of hash fs hmem hv ?_
    rw [getFileSha1, hlook]
    rcases hsha with h | h <;> rw [h] <;> simp [hhash]

/-- A manifest entry whose sha1 field is the empty string. -/
def exEntryEmptySha : ManifestFile :=
  { path := "mods/a.txt", sha1 := .str "", size := 1, url := "u" }

/-- A one-entry manifest with an empty sha1. -/
def exManifestEmptySha : Manifest :=
  { version := "1", files := [exEntryEmptySha] }

/-- A local tree already holding the file of that entry. -/
def exFSEmptySha : FS := [("mods/a.txt", [1])]

/-- C3 counterexample: an entry with an empty fingerprint whose file
already exists locally is nevertheless scheduled for download by
validateLocalFiles, so the claim that validation treats it as satisfied
is false on the modpack path. -/
theorem empty_sha1_entry_rescheduled_cex :
    exEntryEmptySha.sha1.falsy = true ∧
    fileExists exFSEmptySha exEntryEmptySha.path = true ∧
    mkDlItem exEntryEmptySha ∈ validateLocalFiles lenHash exFSEmptySha exManifestEmptySha := by
  decide

theorem empty_fingerprint_validateFile_vs_validateLocalFiles_witness :
    validateFile lenHash exFSEmptySha "mods/a.txt" (JsVal.str "") = true ∧
    mkDlItem exEntryEmptySha ∈ validateLocalFiles lenHash exFSEmptySha exManifestEmptySha :=
  ⟨empty_fingerprint_validateFile_vs_validateLocalFiles.1 lenHash exFSEmptySha
      "mods/a.txt" (JsVal.str "") (by decide) (by decide),
   empty_fingerprint_validateFile_vs_validateLocalFiles.2 lenHash exFSEmptySha
      exManifestEmptySha exEntryEmptySha [1] (by decide) (by decide)
      (Or.inr rfl) (by decide) (by decide)⟩

/-- C4 as amended: after a mutation that changes the local bytes away
from a non-empty declared fingerprint, the next validation pass marks
the client jar and any library for re-download (getMissingFiles), and
marks any non-volatile modpack entry for re-download
(validateLocalFiles); asset entries are exempt — getMissingFiles does
not re-hash assets when the asset index file exists. -/
theorem mutated_file_marked_for_redownload :
    (∀ (hash : Hash) (fs : FS) (rf : RequiredFiles) (c : Content),
        fsLookup fs ("versions/" ++ rf.version ++ "/" ++ rf.version ++ ".jar") = some c →
        rf.client.sha1.falsy = false → JsVal.str (hash c) ≠ rf.client.sha1 →
        (getMissingFiles hash fs rf).client = some rf.client) ∧
    (∀ (hash : Hash) (fs : FS) (rf : RequiredFiles) (lib : GameLib) (c : Content),
        lib ∈ rf.libraries →
        fsLookup fs ("libraries/" ++ lib.path) = some c →
        lib.sha1.falsy = false → JsVal.str (hash c) ≠ lib.sha1 →
        lib ∈ (getMissingFiles hash fs rf).libraries) ∧
    (∀ (hash : Hash) (fs : FS) (m : Manifest) (file : ManifestFile) (c : Content),
        file ∈ m.files → isVolatile file.path = false →
        fsLookup fs file.path = some c → JsVal.str (hash c) ≠ file.sha1 →
        mkDlItem file ∈ validateLocalFiles hash fs m) := by
  refine ⟨?_, ?_, ?_⟩
  · intro hash fs rf c hlook hfal hmis
    have hval : validateFile hash fs
        ("versions/" ++ rf.version ++ "/" ++ rf.version ++ ".jar") rf.client.sha1 = false := by
      simp [validateFile, fileExists, hlook, hfal, hmis]
    simp [getMissingFiles, hval]
  · intro hash fs rf lib c hmem hlook hfal hmis
    have hval : validateFile hash fs ("libraries/" ++ lib.path) lib.sha1 = false := by
      simp [validateFile, fileExists, hlook, hfal, hmis]
    simp only [getMissingFiles, validateLibraries]
    exact List.mem_filter.mpr ⟨hmem, by simp [hval]⟩
  · intro hash fs m file c hmem hv hlook hmis
    refine validateStep_mem_of hash fs hmem hv ?_
    rw [getFileSha1, hlook]
    exact hmis

/-- A library entry with a non-empty fingerprint. -/
def exLibMut : GameLib := { path := "g/a.jar", sha1 := .str "9", url := "lu" }

/-- A required-files record whose client and library fingerprints are
non-empty. -/
def exRFMut : RequiredFiles :=
  { version := "v", client := { sha1 := .str "9", url := "cu" },
    libraries := [exLibMut], assets := { indexId := "idx", assets := [] } }

/-- A local tree whose client jar and library bytes hash differently
from the declared fingerprints. -/
def exFSMut : FS := [("versions/v/v.jar", [1]), ("libraries/g/a.jar", [1])]

/-- A modpack entry with a non-empty fingerprint. -/
def exEntryMut : ManifestFile :=
  { path := "mods/b.jar", sha1 := .str "9", size := 1, url := "u" }

/-- A one-entry modpack manifest for the mutation test. -/
def exManifestMut : Manifest := { version := "1", files := [exEntryMut] }

theorem mutated_file_marked_for_redownload_witness :
    (getMissingFiles lenHash exFSMut exRFMut).client = some exRFMut.client ∧
    exLibMut ∈ (getMissingFiles lenHash exFSMut exRFMut).libraries ∧
    mkDlItem exEntryMut ∈ validateLocalFiles lenHash [("mods/b.jar", [1])] exManifestMut :=
  ⟨mutated_file_marked_for_redownload.1 lenHash exFSMut exRFMut [1] (by decide)
      (by decide) (by decide),
   mutated_file_marked_for_redownload.2.1 lenHash exFSMut exRFMut exLibMut [1]
      (by decide) (by decide) (by decide) (by decide),
   mutated_file_marked_for_redownload.2.2 lenHash [("mods/b.jar", [1])] exManifestMut
      exEntryMut [1] (by decide) (by decide) (by decide) (by decide)⟩

/-- A game asset whose declared hash is non-empty. -/
def exAssetMut : GameAsset :=
  { name := "a", path := "ab/cd", hash := .str "9", url := "au" }

/-- A required-files record listing that asset. -/
def exRFAsset : RequiredFiles :=
  { version := "v", client := { sha1 := .null, url := "cu" },
    libraries := [], assets := { indexId := "idx", assets := [exAssetMut] } }

/-- A local tree where the asset index exists and the asset's bytes were
mutated away from the declared hash. -/
def exFSAsset : FS :=
  [("assets/indexes/idx.json", [0]), ("assets/objects/ab/cd", [1])]

/-- C4 counterexample: an asset entry with a non-empty fingerprint whose
local bytes hash differently is not marked for re-download by
getMissingFiles, because the asset index file exists and the validator
then assumes every asset is valid. -/
theorem mutated_asset_not_marked_cex :
    exAssetMut.hash = JsVal.str "9" ∧
    fsLookup exFSAsset ("assets/objects/" ++ exAssetMut.path) = some [1] ∧
    JsVal.str (lenHash [1]) ≠ exAssetMut.hash ∧
    exAssetMut ∈ exRFAsset.assets.assets ∧
    (getMissingFiles lenHash exFSAsset exRFAsset).assets = [] := by
  decide

end NaizoLauncher

namespace NaizoLauncher

theorem validateFiles_paths_sublist (hash : Hash) (fs : FS) (files : List ManifestFile) :
    List.Sublist ((validateFiles hash fs files).map (·.path)) (files.map (·.path)) := by
  induction files with
  | nil => simp [validateFiles]
  | cons f t ih =>
    rw [validateFiles, List.filterMap_cons]
    have ih' : List.Sublist ((List.filterMap (validateStep hash fs) t).map (·.path))
        (t.map (·.path)) := ih
    cases h : validateStep hash fs f with
    | none =>
      rw [List.map_cons]
      exact ih'.cons f.path
    | some item =>
      rcases validateStep_eq_some.mp h with ⟨-, -, rfl⟩
      rw [List.map_cons, List.map_cons]
      exact ih'.cons₂ _

theorem downloadUpdates_ok_lookup_not_mem (hash : Hash) (net : Net) :
    ∀ (items : List DlItem) (fs fs' : FS),
      downloadUpdates hash net fs items = (fs', .ok ()) →
      ∀ p, p ∉ items.map (·.path) → fsLookup fs' p = fsLookup fs p := by
  intro items
  induction items with
  | nil =>
    intro fs fs' h p _
    simp only [downloadUpdates, Prod.mk.injEq] at h
    obtain ⟨rfl, -⟩ := h
    rfl
  | cons hd rest ih =>
    intro fs fs' h p hp
    rw [List.map_cons, List.mem_cons] at hp
    push_neg at hp
    obtain ⟨hp1, hp2⟩ := hp
    cases hnet : net hd.url with
    | fail leftover msg =>
      simp [downloadUpdates, downloadFile, hnet] at h
    | ok c =>
      simp only [downloadUpdates, downloadFile, hnet] at h
      have hrest : downloadUpdates hash net (fsWrite fs hd.path c) rest = (fs', .ok ()) := by
        split_ifs at h
        · simp at h
        · exact h
        · exact h
      rw [ih _ _ hrest p hp2]
      exact fsLookup_write_ne fs c hp1

theorem downloadUpdates_ok_lookup_mem (hash : Hash) (net : Net) :
    ∀ (items : List DlItem) (fs fs' : FS),
      downloadUpdates hash net fs items = (fs', .ok ()) →
      (items.map (·.path)).Nodup →
      ∀ item ∈ items, ∃ c, net item.url = .ok c ∧ fsLookup fs' item.path = some c := by
  intro items
  induction items with
  | nil =>
    intro fs fs' _ _ item hmem
    cases hmem
  | cons hd rest ih =>
    intro fs fs' h hnd item hmem
    rw [List.map_cons, List.nodup_cons] at hnd
    obtain ⟨hnd1, hnd2⟩ := hnd
    cases hnet : net hd.url with
    | fail leftover msg =>
      simp [downloadUpdates, downloadFile, hnet] at h
    | ok c =>
      simp only [downloadUpdates, downloadFile, hnet] at h
      have hrest : downloadUpdates hash net (fsWrite fs hd.path c) rest = (fs', .ok ()) := by
        split_ifs at h
        · simp at h
        · exact h
        · exact h
      rcases List.mem_cons.mp hmem with rfl | hmem'
      · refine ⟨c, hnet, ?_⟩
        rw [downloadUpdates_ok_lookup_not_mem hash net rest _ _ hrest item.path hnd1]
        exact fsLookup_write_self _ _ _
      · exact ih _ _ hrest hnd2 item hmem'

/-- C2 as amended: when sync completes successfully and, in addition, no
advisory hash mismatch was tolerated during the download stage (every
downloaded body hashes to its entry's declared sha1), an immediately
subsequent validateLocalFiles against the same manifest and the
filesystem sync left behind returns the empty list.  (The manifest's
paths are assumed pairwise distinct, as the generator guarantees.) -/
theorem sync_success_strict_hashes_validate_empty
    (hash : Hash) (fetchMan : String → Option Manifest) (net : Net)
    (url : String) (fs fs' : FS) (m : Manifest)
    (hnodup : (m.files.map (·.path)).Nodup)
    (hfetch : fetchMan url = some m)
    (hstrict : ∀ item ∈ validateLocalFiles hash fs m, ∀ c, net item.url = .ok c →
        JsVal.str (hash c) = item.sha1)
    (hsync : sync hash fetchMan net (some url) fs = (fs', .ok (some m))) :
    validateLocalFiles hash fs' m = [] := by
  simp only [sync, hfetch] at hsync
  rcases hdl : downloadUpdates hash net fs (validateLocalFiles hash fs m) with ⟨fs1, res⟩
  rw [hdl] at hsync
  cases res with
  | error e => simp at hsync
  | ok u =>
    cases u
    simp only [Prod.mk.injEq] at hsync
    obtain ⟨rfl, -⟩ := hsync
    rw [validateLocalFiles, validateFiles, List.filterMap_eq_nil_iff]
    intro file hfile
    rw [validateStep]
    cases hv : isVolatile file.path with
    | true => simp
    | false =>
      suffices hval : getFileSha1 hash (cleanupExtraFiles fs1 m) file.path = file.sha1 by
        simp [hval]
      have hpaths : file.path ∈ m.files.map (·.path) :=
        List.mem_map.mpr ⟨file, hfile, rfl⟩
      have hclean : fsLookup (cleanupExtraFiles fs1 m) file.path = fsLookup fs1 file.path :=
        fsLookup_cleanup_of_mem fs1 m hpaths
      by_cases hs : getFileSha1 hash fs file.path = file.sha1
      · have hnotmem : file.path ∉ (validateLocalFiles hash fs m).map (·.path) := by
          intro hcon
          rcases List.mem_map.mp hcon with ⟨item, hitem, hpath⟩
          rcases mem_validateFiles.mp hitem with ⟨g, hg, hstep⟩
          rcases validateStep_eq_some.mp hstep with ⟨-, hgs, rfl⟩
          have hgf : g = file := List.inj_on_of_nodup_map hnodup hg hfile hpath
          rw [hgf] at hgs
          exact hgs hs
        have hpres := downloadUpdates_ok_lookup_not_mem hash net _ _ _ hdl file.path hnotmem
        rw [getFileSha1, hclean, hpres, ← getFileSha1]
        exact hs
      · have hmemup : mkDlItem file ∈ validateLocalFiles hash fs m :=
          validateStep_mem_of hash fs hfile hv hs
        have hupnd : ((validateLocalFiles hash fs m).map (·.path)).Nodup :=
          hnodup.sublist (validateFiles_paths_sublist hash fs m.files)
        obtain ⟨c, hnet, hlook1⟩ :=
          downloadUpdates_ok_lookup_mem hash net _ _ _ hdl hupnd (mkDlItem file) hmemup
        have hh : JsVal.str (hash c) = file.sha1 := hstrict (mkDlItem file) hmemup c hnet
        have hlook2 : fsLookup fs1 file.path = some c := hlook1
        rw [getFileSha1, hclean, hlook2]
        exact hh

/-- A one-entry manifest listing a config file whose served bytes do not
hash to the declared sha1. -/
def exManifestCfg : Manifest :=
  { version := "1",
    files := [{ path := "config/a.txt", sha1 := .str "9", size := 1, url := "u" }] }

/-- C2 counterexample: sync completes successfully (the non-.jar hash
mismatch is tolerated by downloadUpdates), yet an immediately subsequent
validateLocalFiles against the same manifest and the resulting
filesystem still schedules the config entry, so the returned list is not
empty. -/
theorem sync_success_nonempty_validate_cex :
    (sync lenHash (fun _ => some exManifestCfg) exNetU7 (some "mu") []).2 =
      .ok (some exManifestCfg) ∧
    validateLocalFiles lenHash
        (sync lenHash (fun _ => some exManifestCfg) exNetU7 (some "mu") []).1
        exManifestCfg ≠ [] :=
  ⟨rfl, by decide⟩

theorem sync_success_strict_hashes_validate_empty_witness :
    validateLocalFiles lenHash [("mods/a.jar", [7])] exManifestJar = [] :=
  sync_success_strict_hashes_validate_empty lenHash (fun _ => some exManifestJar)
    exNetU7 "mu" [] [("mods/a.jar", [7])] exManifestJar (by decide) rfl
    (by
      intro item hitem c hc
      have he : validateLocalFiles lenHash [] exManifestJar =
          [{ url := "u", path := "mods/a.jar", sha1 := .str "1", size := 1 }] := rfl
      rw [he, List.mem_singleton] at hitem
      subst hitem
      have h7 : NetResult.ok [7] = NetResult.ok c := hc
      injection h7 with h7
      subst h7
      rfl)
    rfl

end NaizoLauncher
